import Mathlib

/-!
Verification development for the Bluemantle trading-hub front end.

The embedding below translates the two code units the specification talks
about:

* `src/pages/Apply.tsx` — the lead-capture form: the zod schema
  `applySchema`, the submit handler `handleSubmit`, and the submit button
  whose `disabled={loading}` attribute gates form submission.
* `src/components/MarketTicker.tsx` — the decorative ticker whose
  `setInterval` callback perturbs each displayed index.

Pure functions are translated as Lean functions; the stateful submit flow
is modelled as an event trace produced by the handler plus an explicit
state-transition function folding the trace over a controller state.
JavaScript numbers in the ticker are modelled as rationals.
-/

namespace Bluemantle

/-- The five field identifiers of the lead-application form
(`FormData` keys in `Apply.tsx`). -/
inductive Field where
  | name
  | mobile
  | email
  | age
  | qualification
deriving DecidableEq, Repr

/-- One zod issue: a field path (always a single key for this flat schema)
and a human-readable message, as produced by `applySchema.parse`. -/
structure Issue where
  path : Field
  message : String
deriving DecidableEq, Repr

/-- An ASCII letter, the character class `[a-zA-Z]` of the name regex. -/
def asciiLetter (c : Char) : Bool :=
  (65 ≤ c.toNat && c.toNat ≤ 90) || (97 ≤ c.toNat && c.toNat ≤ 122)

/-- A character of the JavaScript regex class `\s` (whitespace), used by the
name rule `/^[a-zA-Z\s]+$/`. -/
def jsWhitespace (c : Char) : Bool :=
  c.toNat = 32 || (9 ≤ c.toNat && c.toNat ≤ 13) ||
  c.toNat = 0xa0 || c.toNat = 0x1680 ||
  (0x2000 ≤ c.toNat && c.toNat ≤ 0x200a) ||
  c.toNat = 0x2028 || c.toNat = 0x2029 || c.toNat = 0x202f ||
  c.toNat = 0x205f || c.toNat = 0x3000 || c.toNat = 0xfeff

/-- The name regex `/^[a-zA-Z\s]+$/`: one or more characters, each an ASCII
letter or a `\s` whitespace character. -/
def nameRegexCheck (s : String) : Bool :=
  !s.toList.isEmpty && s.toList.all (fun c => asciiLetter c || jsWhitespace c)

/-- Issues of the `name` field: zod runs the `min(1)` check and the regex
check, collecting a message for each failing check. -/
def nameIssues (s : String) : List Issue :=
  (if s.length < 1 then [⟨Field.name, "Name is required"⟩] else []) ++
  (if nameRegexCheck s then [] else
    [⟨Field.name, "Name must contain only letters and spaces"⟩])

/-- A digit character, the class `[0-9]` of the mobile regex. -/
def isDigitChar (c : Char) : Bool :=
  48 ≤ c.toNat && c.toNat ≤ 57

/-- The mobile regex `/^[0-9]{10}$/`: exactly ten digit characters. -/
def mobileRegexCheck (s : String) : Bool :=
  s.length = 10 && s.toList.all isDigitChar

/-- Issues of the `mobile` field. -/
def mobileIssues (s : String) : List Issue :=
  if mobileRegexCheck s then [] else
    [⟨Field.mobile, "Mobile number must be exactly 10 digits"⟩]

/-- A character allowed anywhere in the local part of zod's email regex:
`[A-Z0-9_'+\-\.]` (case-insensitive). -/
def emailLocalChar (c : Char) : Bool :=
  asciiLetter c || isDigitChar c || c = '_' || c = Char.ofNat 39 ||
  c = '+' || c = '-' || c = '.'

/-- A character allowed as the last character of the local part:
`[A-Z0-9_+-]` (no dot, no apostrophe). -/
def emailLocalEnd (c : Char) : Bool :=
  asciiLetter c || isDigitChar c || c = '_' || c = '+' || c = '-'

/-- Local part pattern `([A-Z0-9_'+\-\.]*)[A-Z0-9_+-]`: nonempty, the last
character from the restricted class, the rest from the wider class. -/
def emailLocalOk (l : List Char) : Bool :=
  match l.getLast? with
  | none => false
  | some c => emailLocalEnd c && l.dropLast.all emailLocalChar

/-- A domain label `[A-Z0-9][A-Z0-9\-]*`. -/
def emailLabelOk (l : List Char) : Bool :=
  match l with
  | [] => false
  | c :: rest =>
      (asciiLetter c || isDigitChar c) &&
      rest.all (fun d => asciiLetter d || isDigitChar d || d = '-')

/-- The top-level-domain pattern `[A-Z]{2,}`. -/
def emailTldOk (l : List Char) : Bool :=
  2 ≤ l.length && l.all asciiLetter

/-- Domain pattern `([A-Z0-9][A-Z0-9\-]*\.)+[A-Z]{2,}`: at least one label,
then a final alphabetic part of length at least two, dot-separated. -/
def emailDomainOk (d : List Char) : Bool :=
  match (List.splitOn '.' d).reverse with
  | [] => false
  | tld :: labels =>
      !labels.isEmpty && emailTldOk tld && labels.all emailLabelOk

/-- Whether a character list contains two consecutive dots (zod's negative
lookahead `(?!.*\.\.)` over the whole string). -/
def hasDoubleDot : List Char → Bool
  | [] => false
  | [_] => false
  | a :: b :: rest => (a = '.' && b = '.') || hasDoubleDot (b :: rest)

/-- zod's email validation regex
`/^(?!\.)(?!.*\.\.)([A-Z0-9_'+\-\.]*)[A-Z0-9_+-]@([A-Z0-9][A-Z0-9\-]*\.)+[A-Z]{2,}$/i`:
the string does not start with a dot, contains no two consecutive dots, and
splits at its first `@` into a valid local part and a valid domain (the
local-part classes cannot match `@`, so the split point is the first `@`). -/
def zodEmailCheck (s : String) : Bool :=
  let cs := s.toList
  (match cs with | [] => false | c :: _ => c ≠ '.') &&
  !hasDoubleDot cs &&
  (match cs.dropWhile (fun c => c ≠ '@') with
   | '@' :: domain =>
       emailLocalOk (cs.takeWhile (fun c => c ≠ '@')) && emailDomainOk domain
   | _ => false)

/-- Issues of the `email` field. -/
def emailIssues (s : String) : List Issue :=
  if zodEmailCheck s then [] else [⟨Field.email, "Invalid email format"⟩]

/-- Issues of the `age` field. The handler passes `parseInt(formData.age)`
to the schema; a failed parse is `NaN` (modelled as `none`), which fails
zod's `z.number()` type check with a generic type issue. A parsed number
runs the `min(18)` and `max(100)` checks, both collected. -/
def ageIssues (age : Option Int) : List Issue :=
  match age with
  | none => [⟨Field.age, "Expected number, received nan"⟩]
  | some n =>
      (if n < 18 then [⟨Field.age, "Age must be at least 18"⟩] else []) ++
      (if 100 < n then [⟨Field.age, "Age must be less than 100"⟩] else [])

/-- Issues of the `qualification` field: `z.enum(["High School","UG","PG",
"Others"])` with an `errorMap` overriding every message of that schema with
the dedicated text, so any value outside the enumeration yields exactly the
dedicated message. -/
def qualIssues (s : String) : List Issue :=
  if s = "High School" ∨ s = "UG" ∨ s = "PG" ∨ s = "Others" then []
  else [⟨Field.qualification, "Please select a qualification"⟩]

/-- The candidate record handed to `applySchema.parse`: the raw strings of
the form plus `age` already coerced by `parseInt` (`none` = `NaN`). -/
structure Candidate where
  name : String
  mobile : String
  email : String
  age : Option Int
  qualification : String
deriving DecidableEq, Repr

/-- The validated lead-application record returned by a successful parse. -/
structure ApplicationRecord where
  name : String
  mobile : String
  email : String
  age : Int
  qualification : String
deriving DecidableEq, Repr

/-- Issues of one field of a candidate, keyed by field identifier. -/
def fieldIssues (c : Candidate) : Field → List Issue
  | Field.name => nameIssues c.name
  | Field.mobile => mobileIssues c.mobile
  | Field.email => emailIssues c.email
  | Field.age => ageIssues c.age
  | Field.qualification => qualIssues c.qualification

/-- All issues of a candidate, in schema key order, as zod's object parse
collects them (every field is checked; violations are appended, never
cut short at the first failing field). -/
def allIssues (c : Candidate) : List Issue :=
  nameIssues c.name ++ mobileIssues c.mobile ++ emailIssues c.email ++
  ageIssues c.age ++ qualIssues c.qualification

/-- `applySchema.parse`: either the validated record — the input values
unchanged — or the full issue list wrapped in a `ZodError`. -/
def applyParse (c : Candidate) : Except (List Issue) ApplicationRecord :=
  match c.age with
  | none => Except.error (allIssues c)
  | some n =>
      if allIssues c = [] then
        Except.ok ⟨c.name, c.mobile, c.email, n, c.qualification⟩
      else Except.error (allIssues c)

/-- Decidable membership of a field in an issue list, used to state that
the returned error collection has an entry for a given field. -/
def errorSetHasField (issues : List Issue) (f : Field) : Bool :=
  issues.any (fun i => decide (i.path = f))

/-- Whether `applySchema.parse` accepts a candidate (returns the record
rather than throwing a `ZodError`). -/
def parseAccepts (c : Candidate) : Bool :=
  match applyParse c with
  | Except.ok _ => true
  | Except.error _ => false

/-- JavaScript `parseInt` restricted to the strings the age input can hold:
the `onChange` handler stores `e.target.value.replace(/\D/g, "")`, so the
stored text is a (possibly empty) run of digit characters; `parseInt`
returns `NaN` (here `none`) on the empty string and the numeric value of
the digit run otherwise. -/
def parseIntJs (s : String) : Option Int :=
  let ds := s.toList.takeWhile Char.isDigit
  if ds.isEmpty then none
  else some (ds.foldl (fun acc c => acc * 10 + ((c.toNat : Int) - 48)) 0)

/-- The raw `formData` React state: every field a string, `age` included. -/
structure FormData where
  name : String
  mobile : String
  email : String
  age : String
  qualification : String
deriving DecidableEq, Repr

/-- The argument object `{...formData, age: parseInt(formData.age)}` built
by `handleSubmit` and passed to `applySchema.parse`. -/
def toCandidate (fd : FormData) : Candidate :=
  ⟨fd.name, fd.mobile, fd.email, parseIntJs fd.age, fd.qualification⟩

/-- The two toast notifications `handleSubmit` can emit, distinguished by
their titles in the source (`"Validation Error"` vs `"Submission Failed"`). -/
inductive ToastKind where
  | validationError
  | submissionFailed
deriving DecidableEq, Repr

/-- Observable steps of one run of `handleSubmit`, in program order:
state updates via React setters, the gateway invocation, the
`sessionStorage` write, the `setTimeout` scheduling, the `console.error`
log, and toast notifications. -/
inductive Event where
  | setErrorsEmpty
  | setErrors (issues : List Issue)
  | setLoading (b : Bool)
  | gatewayCall (r : ApplicationRecord)
  | setSubmitted
  | setSessionFlag
  | scheduleNavigation (ms : Nat)
  | consoleLog
  | toast (k : ToastKind)
deriving DecidableEq, Repr

/-- Outcome of the Submission Gateway call (`supabase.functions.invoke`):
`ok` when `error` is null, `err` when the handler throws it. -/
inductive GatewayResult where
  | ok
  | err
deriving DecidableEq, Repr

/-- The event trace of one invocation of `handleSubmit` on form data `fd`
when the gateway would answer `g`: `setErrors({})`, then either the
validation-failure branch of the `catch` (populate errors, validation
toast), or `setLoading(true)`, the gateway call, and the success steps or
the `catch`-else branch (log, failure toast); the `finally` block appends
`setLoading(false)` on every path. -/
def handleSubmitTrace (fd : FormData) (g : GatewayResult) : List Event :=
  Event.setErrorsEmpty ::
  (match applyParse (toCandidate fd) with
   | Except.error issues =>
       [Event.setErrors issues, Event.toast ToastKind.validationError,
        Event.setLoading false]
   | Except.ok r =>
       Event.setLoading true :: Event.gatewayCall r ::
       (match g with
        | GatewayResult.ok =>
            [Event.setSubmitted, Event.setSessionFlag,
             Event.scheduleNavigation 5000, Event.setLoading false]
        | GatewayResult.err =>
            [Event.consoleLog, Event.toast ToastKind.submissionFailed,
             Event.setLoading false]))

/-- The per-field error map built by the `forEach` over `error.errors`:
`newErrors[err.path[0]] = err.message`, a later issue for the same field
overwriting an earlier one. -/
def buildErrors : List Issue → Field → Option String
  | [], _ => none
  | i :: rest, f =>
      match buildErrors rest f with
      | some m => some m
      | none => if f = i.path then some i.message else none

/-- The React state of the `Apply` component relevant to the submit flow,
plus the `sessionStorage` flag `submission_success`. -/
structure ControllerState where
  loading : Bool
  submitted : Bool
  formData : FormData
  errors : Field → Option String
  sessionSuccess : Bool

/-- Effect of one event on the controller state. Events with no state
component (the gateway call itself, the log, the toasts, the scheduled
navigation) leave the state unchanged. -/
def applyEvent (s : ControllerState) : Event → ControllerState
  | Event.setErrorsEmpty => { s with errors := fun _ => none }
  | Event.setErrors issues => { s with errors := buildErrors issues }
  | Event.setLoading b => { s with loading := b }
  | Event.gatewayCall _ => s
  | Event.setSubmitted => { s with submitted := true }
  | Event.setSessionFlag => { s with sessionSuccess := true }
  | Event.scheduleNavigation _ => s
  | Event.consoleLog => s
  | Event.toast _ => s

/-- Folding a trace of events over a controller state. -/
def applyEvents (s : ControllerState) (es : List Event) : ControllerState :=
  es.foldl applyEvent s

/-- The user-triggerable submit operation. The submit button carries
`disabled={loading}`, and the form's implicit submission is likewise
blocked while its default button is disabled, so no form-submit event — and
hence no run of `handleSubmit` — can occur while `loading` is true. -/
def submitTrigger (s : ControllerState) (g : GatewayResult) : List Event :=
  if s.loading then [] else handleSubmitTrace s.formData g

/-- The controller state after a user submit attempt. -/
def runSubmit (s : ControllerState) (g : GatewayResult) : ControllerState :=
  applyEvents s (submitTrigger s g)

/-! ### Ticker Simulator (`MarketTicker.tsx`) -/

/-- One displayed index row of the ticker, numbers as rationals. -/
structure MarketData where
  index : String
  value : ℚ
  change : ℚ
  changePercent : ℚ
deriving DecidableEq, Repr

/-- The interval period of the ticker's `setInterval`, in milliseconds. -/
def tickIntervalMs : Nat := 10000

/-- One interval tick on one index row, with the three `Math.random()`
draws `r1 r2 r3` made explicit:
`value + (r1 - 0.5) * 50`, `change + (r2 - 0.5) * 10`,
`changePercent + (r3 - 0.5) * 0.2`. -/
def tickItem (item : MarketData) (r1 r2 r3 : ℚ) : MarketData :=
  { item with
    value := item.value + (r1 - 1/2) * 50
    change := item.change + (r2 - 1/2) * 10
    changePercent := item.changePercent + (r3 - 1/2) * (1/5) }

/-- One interval tick on the whole snapshot: `prev.map(item => ...)`, each
row consuming its own random draws. -/
def tickAll (data : List MarketData) (rs : List (ℚ × ℚ × ℚ)) :
    List MarketData :=
  List.zipWith (fun item r => tickItem item r.1 r.2.1 r.2.2) data rs

/-- The up/down indicator rendered for a row:
`item.change >= 0 ? <TrendingUp/> : <TrendingDown/>`. -/
inductive Trend where
  | up
  | down
deriving DecidableEq, Repr

/-- The indicator as a function of the `change` field alone. -/
def trendOf (change : ℚ) : Trend :=
  if 0 ≤ change then Trend.up else Trend.down

/-! ### Helper lemmas -/

theorem nameIssues_path (s : String) :
    ∀ i ∈ nameIssues s, i.path = Field.name := by
  intro i hi
  unfold nameIssues at hi
  rcases List.mem_append.1 hi with h | h <;> split at h <;> simp_all

theorem mobileIssues_path (s : String) :
    ∀ i ∈ mobileIssues s, i.path = Field.mobile := by
  intro i hi
  unfold mobileIssues at hi
  split at hi <;> simp_all

theorem emailIssues_path (s : String) :
    ∀ i ∈ emailIssues s, i.path = Field.email := by
  intro i hi
  unfold emailIssues at hi
  split at hi <;> simp_all

theorem ageIssues_path (a : Option Int) :
    ∀ i ∈ ageIssues a, i.path = Field.age := by
  intro i hi
  cases a with
  | none => simp [ageIssues] at hi; simp [hi]
  | some n =>
      unfold ageIssues at hi
      rcases List.mem_append.1 hi with h | h <;> split at h <;> simp_all

theorem qualIssues_path (s : String) :
    ∀ i ∈ qualIssues s, i.path = Field.qualification := by
  intro i hi
  unfold qualIssues at hi
  split at hi <;> simp_all

/-- The object-level issue list is the concatenation of the per-field
issue lists, in key order. -/
theorem allIssues_eq_fields (c : Candidate) :
    allIssues c =
      fieldIssues c Field.name ++ fieldIssues c Field.mobile ++
      fieldIssues c Field.email ++ fieldIssues c Field.age ++
      fieldIssues c Field.qualification := rfl

/-- Every issue of a field's list carries that field as its path. -/
theorem fieldIssues_path (c : Candidate) (f : Field) :
    ∀ i ∈ fieldIssues c f, i.path = f := by
  cases f with
  | name => exact nameIssues_path c.name
  | mobile => exact mobileIssues_path c.mobile
  | email => exact emailIssues_path c.email
  | age => exact ageIssues_path c.age
  | qualification => exact qualIssues_path c.qualification

/-- An issue of the full list belongs to the list of its own field. -/
theorem mem_fieldIssues_of_mem_allIssues (c : Candidate) (i : Issue)
    (h : i ∈ allIssues c) : i ∈ fieldIssues c i.path := by
  rw [allIssues_eq_fields] at h
  simp only [List.mem_append] at h
  rcases h with (((h | h) | h) | h) | h
  · rw [nameIssues_path c.name i h]; exact h
  · rw [mobileIssues_path c.mobile i h]; exact h
  · rw [emailIssues_path c.email i h]; exact h
  · rw [ageIssues_path c.age i h]; exact h
  · rw [qualIssues_path c.qualification i h]; exact h

/-- Each field's issues are among the full list. -/
theorem mem_allIssues_of_mem_fieldIssues (c : Candidate) (f : Field)
    (i : Issue) (h : i ∈ fieldIssues c f) : i ∈ allIssues c := by
  rw [allIssues_eq_fields]
  simp only [List.mem_append]
  cases f with
  | name => tauto
  | mobile => tauto
  | email => tauto
  | age => tauto
  | qualification => tauto

/-- The full issue list has an entry for field `f` exactly when `f`'s own
rule produced at least one violation. -/
theorem exists_issue_iff (c : Candidate) (f : Field) :
    (∃ i ∈ allIssues c, i.path = f) ↔ fieldIssues c f ≠ [] := by
  constructor
  · rintro ⟨i, hi, hp⟩
    have := mem_fieldIssues_of_mem_allIssues c i hi
    rw [hp] at this
    exact List.ne_nil_of_mem this
  · intro h
    rcases List.exists_mem_of_ne_nil _ h with ⟨i, hi⟩
    exact ⟨i, mem_allIssues_of_mem_fieldIssues c f i hi,
      fieldIssues_path c f i hi⟩

/-- The error map built by the `forEach` has an entry for a field exactly
when the issue list mentions that field. -/
theorem buildErrors_ne_none_iff (issues : List Issue) (f : Field) :
    buildErrors issues f ≠ none ↔ ∃ i ∈ issues, i.path = f := by
  induction issues with
  | nil => simp [buildErrors]
  | cons i rest ih =>
      cases h : buildErrors rest f with
      | some m =>
          have hex : ∃ j ∈ rest, j.path = f := by
            rw [← ih]; simp [h]
          rcases hex with ⟨j, hj, hjp⟩
          simp only [buildErrors, h]
          constructor
          · intro _; exact ⟨j, List.mem_cons_of_mem _ hj, hjp⟩
          · intro _; simp
      | none =>
          have hex : ¬ ∃ j ∈ rest, j.path = f := by
            rw [← ih]; simp [h]
          simp only [buildErrors, h, List.mem_cons]
          by_cases hf : f = i.path
          · rw [if_pos hf]
            constructor
            · intro _; exact ⟨i, Or.inl rfl, hf.symm⟩
            · intro _; simp
          · rw [if_neg hf]
            constructor
            · intro hne; exact absurd rfl hne
            · rintro ⟨j, hj | hj, hjp⟩
              · subst hj; exact absurd hjp.symm hf
              · exact absurd ⟨j, hj, hjp⟩ hex

/-- A successful parse returns the candidate's own values, unchanged. -/
theorem applyParse_ok_fields (c : Candidate) (r : ApplicationRecord)
    (h : applyParse c = Except.ok r) :
    r.name = c.name ∧ r.mobile = c.mobile ∧ r.email = c.email ∧
    some r.age = c.age ∧ r.qualification = c.qualification ∧
    allIssues c = [] := by
  cases hc : c.age with
  | none => simp [applyParse, hc] at h
  | some n =>
      simp only [applyParse, hc] at h
      by_cases hcond : allIssues c = []
      · rw [if_pos hcond] at h
        injection h with h2
        subst h2
        exact ⟨rfl, rfl, rfl, rfl, rfl, hcond⟩
      · rw [if_neg hcond] at h
        exact Except.noConfusion h

/-- A failed parse always carries the full issue list. -/
theorem applyParse_error_issues (c : Candidate) (issues : List Issue)
    (h : applyParse c = Except.error issues) : issues = allIssues c := by
  cases hc : c.age with
  | none =>
      simp only [applyParse, hc] at h
      injection h with h2
      exact h2.symm
  | some n =>
      simp only [applyParse, hc] at h
      by_cases hcond : allIssues c = []
      · rw [if_pos hcond] at h
        exact Except.noConfusion h
      · rw [if_neg hcond] at h
        injection h with h2
        exact h2.symm

/-- When some rule is violated, the parse throws with the full issue
list. -/
theorem applyParse_error_of_issues (c : Candidate)
    (h : allIssues c ≠ []) :
    applyParse c = Except.error (allIssues c) := by
  cases hc : c.age with
  | none => simp [applyParse, hc]
  | some n => simp [applyParse, hc, h]

/-- One nonempty field list makes the full issue list nonempty. -/
theorem allIssues_ne_nil_of_field (c : Candidate) (f : Field)
    (h : fieldIssues c f ≠ []) : allIssues c ≠ [] := by
  intro hnil
  rcases List.exists_mem_of_ne_nil _ h with ⟨i, hi⟩
  have := mem_allIssues_of_mem_fieldIssues c f i hi
  rw [hnil] at this
  exact List.not_mem_nil i this

/-- `errorSetHasField` agrees with the existence of an issue on `f`. -/
theorem errorSetHasField_iff (issues : List Issue) (f : Field) :
    errorSetHasField issues f = true ↔ ∃ i ∈ issues, i.path = f := by
  simp [errorSetHasField, List.any_eq_true]

/-- The rendered trend indicator in terms of the sign of `change`. -/
theorem trendOf_spec (c : ℚ) :
    (trendOf c = Trend.up ↔ 0 ≤ c) ∧ (trendOf c = Trend.down ↔ c < 0) := by
  unfold trendOf
  by_cases h : 0 ≤ c
  · simp [h, not_lt.mpr h]
  · simp [h, not_le.mp h]

/-! ### Claim theorems -/

/-- C1: While a submission is in flight (`loading = true`), a further
submit attempt is a no-op. The submit button carries `disabled={loading}`
and the form's implicit submission is blocked while its default button is
disabled, so the submit operation produces no events at all — no
validation, no gateway call, no state change — and at most one submission
is ever in flight. -/
theorem C1_submit_noop_while_loading (s : ControllerState)
    (g : GatewayResult) (h : s.loading = true) :
    submitTrigger s g = [] ∧ runSubmit s g = s := by
  have ht : submitTrigger s g = [] := by simp [submitTrigger, h]
  exact ⟨ht, by simp [runSubmit, ht, applyEvents]⟩

/-- Witness for C1 at a concrete in-flight state. -/
theorem C1_witness :
    submitTrigger ⟨true, false, ⟨"", "", "", "", ""⟩, fun _ => none, false⟩
        GatewayResult.ok = [] ∧
    runSubmit ⟨true, false, ⟨"", "", "", "", ""⟩, fun _ => none, false⟩
        GatewayResult.ok =
      ⟨true, false, ⟨"", "", "", "", ""⟩, fun _ => none, false⟩ :=
  C1_submit_noop_while_loading _ _ rfl

/-- C2: For every form state whose fields parse and validate successfully,
submit enters the submitting state (`setLoading true`), calls the gateway
with exactly the validated record — whose fields equal the form's raw
values, `age` via `parseInt` — and on gateway success transitions to the
success state, sets the `submission_success` session flag, and schedules
exactly one navigation after 5000 ms. -/
theorem C2_valid_submit_success (s : ControllerState)
    (r : ApplicationRecord) (hl : s.loading = false)
    (h : applyParse (toCandidate s.formData) = Except.ok r) :
    submitTrigger s GatewayResult.ok =
      [Event.setErrorsEmpty, Event.setLoading true, Event.gatewayCall r,
       Event.setSubmitted, Event.setSessionFlag,
       Event.scheduleNavigation 5000, Event.setLoading false] ∧
    r.name = s.formData.name ∧ r.mobile = s.formData.mobile ∧
    r.email = s.formData.email ∧
    some r.age = parseIntJs s.formData.age ∧
    r.qualification = s.formData.qualification ∧
    (submitTrigger s GatewayResult.ok).countP
      (fun e => match e with
        | Event.gatewayCall _ => true
        | _ => false) = 1 ∧
    (submitTrigger s GatewayResult.ok).countP
      (fun e => match e with
        | Event.scheduleNavigation _ => true
        | _ => false) = 1 ∧
    (runSubmit s GatewayResult.ok).submitted = true ∧
    (runSubmit s GatewayResult.ok).sessionSuccess = true ∧
    (runSubmit s GatewayResult.ok).formData = s.formData := by
  have ht : submitTrigger s GatewayResult.ok =
      [Event.setErrorsEmpty, Event.setLoading true, Event.gatewayCall r,
       Event.setSubmitted, Event.setSessionFlag,
       Event.scheduleNavigation 5000, Event.setLoading false] := by
    simp [submitTrigger, hl, handleSubmitTrace, h]
  obtain ⟨h1, h2, h3, h4, h5, _⟩ := applyParse_ok_fields _ _ h
  refine ⟨ht, h1, h2, h3, h4, h5, ?_, ?_, ?_, ?_, ?_⟩ <;>
    simp [ht, runSubmit, applyEvents, applyEvent, List.countP_cons]

/-- Witness for C2 at the fully valid record of the spec. -/
theorem C2_witness :
    submitTrigger
        ⟨false, false, ⟨"Jane Doe", "9876543210", "jane@example.com", "25",
          "UG"⟩, fun _ => none, false⟩ GatewayResult.ok =
      [Event.setErrorsEmpty, Event.setLoading true,
       Event.gatewayCall ⟨"Jane Doe", "9876543210", "jane@example.com",
         25, "UG"⟩,
       Event.setSubmitted, Event.setSessionFlag,
       Event.scheduleNavigation 5000, Event.setLoading false] :=
  (C2_valid_submit_success
    ⟨false, false, ⟨"Jane Doe", "9876543210", "jane@example.com", "25",
      "UG"⟩, fun _ => none, false⟩
    ⟨"Jane Doe", "9876543210", "jane@example.com", 25, "UG"⟩ rfl rfl).1

/-- C3: On gateway failure the error is not dropped: the trace logs it
(`console.error`) and emits the "Submission Failed" toast — distinct from
the validation toast, which is absent — exactly one gateway call is made
(no automatic retry), and the controller returns to the idle editable
state with the form data unchanged. -/
theorem C3_gateway_failure_reported (s : ControllerState)
    (r : ApplicationRecord) (hl : s.loading = false)
    (hs : s.submitted = false)
    (h : applyParse (toCandidate s.formData) = Except.ok r) :
    submitTrigger s GatewayResult.err =
      [Event.setErrorsEmpty, Event.setLoading true, Event.gatewayCall r,
       Event.consoleLog, Event.toast ToastKind.submissionFailed,
       Event.setLoading false] ∧
    Event.consoleLog ∈ submitTrigger s GatewayResult.err ∧
    Event.toast ToastKind.submissionFailed ∈
      submitTrigger s GatewayResult.err ∧
    Event.toast ToastKind.validationError ∉
      submitTrigger s GatewayResult.err ∧
    (submitTrigger s GatewayResult.err).countP
      (fun e => match e with
        | Event.gatewayCall _ => true
        | _ => false) = 1 ∧
    (runSubmit s GatewayResult.err).loading = false ∧
    (runSubmit s GatewayResult.err).submitted = false ∧
    (runSubmit s GatewayResult.err).formData = s.formData ∧
    (runSubmit s GatewayResult.err).sessionSuccess = s.sessionSuccess := by
  have ht : submitTrigger s GatewayResult.err =
      [Event.setErrorsEmpty, Event.setLoading true, Event.gatewayCall r,
       Event.consoleLog, Event.toast ToastKind.submissionFailed,
       Event.setLoading false] := by
    simp [submitTrigger, hl, handleSubmitTrace, h]
  refine ⟨ht, ?_, ?_, ?_, ?_, ?_, ?_, ?_, ?_⟩ <;>
    simp [ht, runSubmit, applyEvents, applyEvent, List.countP_cons, hs]

/-- Witness for C3 at a concrete valid form state with a failing gateway. -/
theorem C3_witness :
    submitTrigger
        ⟨false, false, ⟨"Jane Doe", "9876543210", "jane@example.com", "25",
          "UG"⟩, fun _ => none, false⟩ GatewayResult.err =
      [Event.setErrorsEmpty, Event.setLoading true,
       Event.gatewayCall ⟨"Jane Doe", "9876543210", "jane@example.com",
         25, "UG"⟩,
       Event.consoleLog, Event.toast ToastKind.submissionFailed,
       Event.setLoading false] :=
  (C3_gateway_failure_reported
    ⟨false, false, ⟨"Jane Doe", "9876543210", "jane@example.com", "25",
      "UG"⟩, fun _ => none, false⟩
    ⟨"Jane Doe", "9876543210", "jane@example.com", 25, "UG"⟩ rfl rfl rfl).1

/-- C4: When validation fails, no gateway call happens, the per-field error
map is populated from the returned issue list, an entry is present for
every violated field (not only the first), the validation toast is
emitted, and the controller stays in the idle editable state. -/
theorem C4_validation_failure_collects_fields (s : ControllerState)
    (issues : List Issue) (g : GatewayResult) (hl : s.loading = false)
    (hs : s.submitted = false)
    (h : applyParse (toCandidate s.formData) = Except.error issues) :
    submitTrigger s g =
      [Event.setErrorsEmpty, Event.setErrors issues,
       Event.toast ToastKind.validationError, Event.setLoading false] ∧
    (∀ r, Event.gatewayCall r ∉ submitTrigger s g) ∧
    issues = allIssues (toCandidate s.formData) ∧
    (runSubmit s g).errors = buildErrors issues ∧
    (∀ f, (runSubmit s g).errors f ≠ none ↔
      fieldIssues (toCandidate s.formData) f ≠ []) ∧
    (runSubmit s g).loading = false ∧
    (runSubmit s g).submitted = false ∧
    (runSubmit s g).formData = s.formData := by
  have ht : submitTrigger s g =
      [Event.setErrorsEmpty, Event.setErrors issues,
       Event.toast ToastKind.validationError, Event.setLoading false] := by
    simp [submitTrigger, hl, handleSubmitTrace, h]
  have hiss := applyParse_error_issues _ _ h
  have herr : (runSubmit s g).errors = buildErrors issues := by
    simp [runSubmit, ht, applyEvents, applyEvent]
  refine ⟨ht, ?_, hiss, herr, ?_, ?_, ?_, ?_⟩
  · intro r; simp [ht]
  · intro f
    rw [herr, buildErrors_ne_none_iff, hiss, exists_issue_iff]
  · simp [runSubmit, ht, applyEvents, applyEvent]
  · simp [runSubmit, ht, applyEvents, applyEvent, hs]
  · simp [runSubmit, ht, applyEvents, applyEvent]

/-- Witness for C4 at the all-empty form. -/
theorem C4_witness :
    submitTrigger ⟨false, false, ⟨"", "", "", "", ""⟩, fun _ => none,
        false⟩ GatewayResult.ok =
      [Event.setErrorsEmpty,
       Event.setErrors (allIssues (toCandidate ⟨"", "", "", "", ""⟩)),
       Event.toast ToastKind.validationError, Event.setLoading false] :=
  (C4_validation_failure_collects_fields
    ⟨false, false, ⟨"", "", "", "", ""⟩, fun _ => none, false⟩
    (allIssues (toCandidate ⟨"", "", "", "", ""⟩)) GatewayResult.ok
    rfl rfl rfl).1

/-- Bundles the two C5 conclusions for one violated field. -/
theorem hasField_of_fieldIssues (c : Candidate) (f : Field)
    (h : fieldIssues c f ≠ []) :
    errorSetHasField (allIssues c) f = true ∧
    applyParse c = Except.error (allIssues c) :=
  ⟨(errorSetHasField_iff _ _).2 ((exists_issue_iff c f).2 h),
   applyParse_error_of_issues c (allIssues_ne_nil_of_field c f h)⟩

/-- C5: For every form state in which a required field is empty at
submission time, validation fails and the returned issue list contains an
entry for that field; `age` is first coerced by `parseInt`, the empty text
becoming `NaN`. -/
theorem C5_empty_required_field_fails (fd : FormData) :
    (fd.name = "" →
      errorSetHasField (allIssues (toCandidate fd)) Field.name = true ∧
      applyParse (toCandidate fd) =
        Except.error (allIssues (toCandidate fd))) ∧
    (fd.mobile = "" →
      errorSetHasField (allIssues (toCandidate fd)) Field.mobile = true ∧
      applyParse (toCandidate fd) =
        Except.error (allIssues (toCandidate fd))) ∧
    (fd.email = "" →
      errorSetHasField (allIssues (toCandidate fd)) Field.email = true ∧
      applyParse (toCandidate fd) =
        Except.error (allIssues (toCandidate fd))) ∧
    (fd.age = "" →
      errorSetHasField (allIssues (toCandidate fd)) Field.age = true ∧
      applyParse (toCandidate fd) =
        Except.error (allIssues (toCandidate fd))) ∧
    (fd.qualification = "" →
      errorSetHasField (allIssues (toCandidate fd)) Field.qualification
        = true ∧
      applyParse (toCandidate fd) =
        Except.error (allIssues (toCandidate fd))) := by
  refine ⟨fun h => ?_, fun h => ?_, fun h => ?_, fun h => ?_, fun h => ?_⟩
  · exact hasField_of_fieldIssues _ Field.name
      (by rw [show fieldIssues (toCandidate fd) Field.name =
        nameIssues fd.name from rfl, h]; decide)
  · exact hasField_of_fieldIssues _ Field.mobile
      (by rw [show fieldIssues (toCandidate fd) Field.mobile =
        mobileIssues fd.mobile from rfl, h]; decide)
  · exact hasField_of_fieldIssues _ Field.email
      (by rw [show fieldIssues (toCandidate fd) Field.email =
        emailIssues fd.email from rfl, h]; decide)
  · exact hasField_of_fieldIssues _ Field.age
      (by rw [show fieldIssues (toCandidate fd) Field.age =
        ageIssues (parseIntJs fd.age) from rfl, h]; decide)
  · exact hasField_of_fieldIssues _ Field.qualification
      (by rw [show fieldIssues (toCandidate fd) Field.qualification =
        qualIssues fd.qualification from rfl, h]; decide)

/-- Witness for C5 at the all-empty form state. -/
theorem C5_witness :
    (errorSetHasField (allIssues (toCandidate ⟨"", "", "", "", ""⟩))
        Field.name = true ∧
      applyParse (toCandidate ⟨"", "", "", "", ""⟩) =
        Except.error (allIssues (toCandidate ⟨"", "", "", "", ""⟩))) ∧
    (errorSetHasField (allIssues (toCandidate ⟨"", "", "", "", ""⟩))
        Field.mobile = true ∧
      applyParse (toCandidate ⟨"", "", "", "", ""⟩) =
        Except.error (allIssues (toCandidate ⟨"", "", "", "", ""⟩))) ∧
    (errorSetHasField (allIssues (toCandidate ⟨"", "", "", "", ""⟩))
        Field.email = true ∧
      applyParse (toCandidate ⟨"", "", "", "", ""⟩) =
        Except.error (allIssues (toCandidate ⟨"", "", "", "", ""⟩))) ∧
    (errorSetHasField (allIssues (toCandidate ⟨"", "", "", "", ""⟩))
        Field.age = true ∧
      applyParse (toCandidate ⟨"", "", "", "", ""⟩) =
        Except.error (allIssues (toCandidate ⟨"", "", "", "", ""⟩))) ∧
    (errorSetHasField (allIssues (toCandidate ⟨"", "", "", "", ""⟩))
        Field.qualification = true ∧
      applyParse (toCandidate ⟨"", "", "", "", ""⟩) =
        Except.error (allIssues (toCandidate ⟨"", "", "", "", ""⟩))) := by
  have t := C5_empty_required_field_fails ⟨"", "", "", "", ""⟩
  exact ⟨t.1 rfl, t.2.1 rfl, t.2.2.1 rfl, t.2.2.2.1 rfl, t.2.2.2.2 rfl⟩

/-- C6: The mobile rule accepts exactly the strings of exactly ten digit
characters: the regex check holds iff the length is 10 and every character
is a digit, the field produces no issue iff the check holds, "12345"
fails, "1234567890" passes. -/
theorem C6_mobile_rule (s : String) :
    (mobileRegexCheck s = true ↔
      (s.length = 10 ∧ ∀ c ∈ s.toList, c.isDigit = true)) ∧
    (mobileIssues s = [] ↔ mobileRegexCheck s = true) ∧
    mobileRegexCheck "12345" = false ∧
    mobileRegexCheck "1234567890" = true := by
  refine ⟨?_, ?_, by decide, by decide⟩
  · have hchar : ∀ c : Char, isDigitChar c = c.isDigit := fun c => rfl
    simp [mobileRegexCheck, List.all_eq_true, hchar]
  · constructor
    · intro h
      by_contra hc
      simp [mobileIssues, hc] at h
    · intro h; simp [mobileIssues, h]

/-- Witness for C6 at the passing example string. -/
theorem C6_witness :
    (mobileRegexCheck "1234567890" = true ↔
      (("1234567890" : String).length = 10 ∧
        ∀ c ∈ ("1234567890" : String).toList, c.isDigit = true)) ∧
    (mobileIssues "1234567890" = [] ↔
      mobileRegexCheck "1234567890" = true) ∧
    mobileRegexCheck "12345" = false ∧
    mobileRegexCheck "1234567890" = true :=
  C6_mobile_rule "1234567890"

/-- C7: The age rule accepts exactly the integers in [18, 100]: a parsed
age yields no issue iff 18 ≤ n ≤ 100; 17 and 101 fail, 18 and 100 pass. -/
theorem C7_age_rule (n : Int) :
    (ageIssues (some n) = [] ↔ 18 ≤ n ∧ n ≤ 100) ∧
    ageIssues (some 17) ≠ [] ∧ ageIssues (some 18) = [] ∧
    ageIssues (some 100) = [] ∧ ageIssues (some 101) ≠ [] := by
  refine ⟨?_, by decide, by decide, by decide, by decide⟩
  by_cases h1 : n < 18 <;> by_cases h2 : 100 < n <;>
    simp [ageIssues, h1, h2] <;> omega

/-- Witness for C7 at the boundary value 18. -/
theorem C7_witness :
    (ageIssues (some 18) = [] ↔ 18 ≤ (18 : Int) ∧ (18 : Int) ≤ 100) ∧
    ageIssues (some 17) ≠ [] ∧ ageIssues (some 18) = [] ∧
    ageIssues (some 100) = [] ∧ ageIssues (some 101) ≠ [] :=
  C7_age_rule 18

/-- C8: Every qualification value outside the enumeration {High School,
UG, PG, Others} fails with exactly the dedicated "Please select a
qualification" message (the `errorMap` replaces the generic enum/type
message), and every issue this field ever emits carries that message. -/
theorem C8_qualification_dedicated_message (s : String)
    (h : ¬(s = "High School" ∨ s = "UG" ∨ s = "PG" ∨ s = "Others")) :
    qualIssues s =
      [⟨Field.qualification, "Please select a qualification"⟩] ∧
    ∀ i ∈ qualIssues s, i.message = "Please select a qualification" := by
  have hq : qualIssues s =
      [⟨Field.qualification, "Please select a qualification"⟩] := by
    unfold qualIssues
    rw [if_neg h]
  refine ⟨hq, ?_⟩
  rw [hq]
  intro i hi
  simp at hi
  simp [hi]

/-- Witness for C8 at the out-of-enumeration value "Graduate". -/
theorem C8_witness :
    qualIssues "Graduate" =
      [⟨Field.qualification, "Please select a qualification"⟩] :=
  (C8_qualification_dedicated_message "Graduate" (by decide)).1

/-- C9: On each tick of the fixed 10000 ms interval, with the three random
draws in [0, 1), the new value differs from the old by at most 25, the
change by at most 5, the percent change by at most 0.1, and the rendered
indicator is up exactly when the (possibly negative) change is
nonnegative, down exactly when it is negative. -/
theorem C9_ticker_tick_bounds (item : MarketData) (r1 r2 r3 : ℚ)
    (h1 : 0 ≤ r1) (h2 : r1 < 1) (h3 : 0 ≤ r2) (h4 : r2 < 1)
    (h5 : 0 ≤ r3) (h6 : r3 < 1) :
    |(tickItem item r1 r2 r3).value - item.value| ≤ 25 ∧
    |(tickItem item r1 r2 r3).change - item.change| ≤ 5 ∧
    |(tickItem item r1 r2 r3).changePercent - item.changePercent|
      ≤ 1/10 ∧
    (trendOf (tickItem item r1 r2 r3).change = Trend.up ↔
      0 ≤ (tickItem item r1 r2 r3).change) ∧
    (trendOf (tickItem item r1 r2 r3).change = Trend.down ↔
      (tickItem item r1 r2 r3).change < 0) ∧
    tickIntervalMs = 10000 := by
  refine ⟨?_, ?_, ?_, (trendOf_spec _).1, (trendOf_spec _).2, rfl⟩
  · rw [show (tickItem item r1 r2 r3).value =
      item.value + (r1 - 1/2) * 50 from rfl]
    rw [abs_le]
    constructor <;> nlinarith
  · rw [show (tickItem item r1 r2 r3).change =
      item.change + (r2 - 1/2) * 10 from rfl]
    rw [abs_le]
    constructor <;> nlinarith
  · rw [show (tickItem item r1 r2 r3).changePercent =
      item.changePercent + (r3 - 1/2) * (1/5) from rfl]
    rw [abs_le]
    constructor <;> nlinarith

/-- Witness for C9 at the seeded NIFTY 50 row with concrete draws. -/
theorem C9_witness :
    |(tickItem ⟨"NIFTY 50", 2485730/100, 23450/100, 95/100⟩ 0 (1/2)
        (3/4)).value -
      (⟨"NIFTY 50", 2485730/100, 23450/100, 95/100⟩ : MarketData).value|
      ≤ 25 ∧
    |(tickItem ⟨"NIFTY 50", 2485730/100, 23450/100, 95/100⟩ 0 (1/2)
        (3/4)).change -
      (⟨"NIFTY 50", 2485730/100, 23450/100, 95/100⟩ : MarketData).change|
      ≤ 5 ∧
    |(tickItem ⟨"NIFTY 50", 2485730/100, 23450/100, 95/100⟩ 0 (1/2)
        (3/4)).changePercent -
      (⟨"NIFTY 50", 2485730/100, 23450/100,
        95/100⟩ : MarketData).changePercent| ≤ 1/10 ∧
    (trendOf (tickItem ⟨"NIFTY 50", 2485730/100, 23450/100, 95/100⟩ 0
        (1/2) (3/4)).change = Trend.up ↔
      0 ≤ (tickItem ⟨"NIFTY 50", 2485730/100, 23450/100, 95/100⟩ 0 (1/2)
        (3/4)).change) ∧
    (trendOf (tickItem ⟨"NIFTY 50", 2485730/100, 23450/100, 95/100⟩ 0
        (1/2) (3/4)).change = Trend.down ↔
      (tickItem ⟨"NIFTY 50", 2485730/100, 23450/100, 95/100⟩ 0 (1/2)
        (3/4)).change < 0) ∧
    tickIntervalMs = 10000 :=
  C9_ticker_tick_bounds _ 0 (1/2) (3/4) (by norm_num) (by norm_num)
    (by norm_num) (by norm_num) (by norm_num) (by norm_num)

/-- C10: A candidate whose name is a nonempty all-whitespace string — and
whose other fields are all valid — is accepted by the schema: the name
rule only requires length at least one and the letters-or-whitespace
pattern, which whitespace alone satisfies. -/
theorem C10_whitespace_name_accepted (c : Candidate) (hne : c.name ≠ "")
    (hws : ∀ ch ∈ c.name.toList, jsWhitespace ch = true)
    (hm : mobileIssues c.mobile = []) (he : emailIssues c.email = [])
    (ha : ageIssues c.age = []) (hq : qualIssues c.qualification = []) :
    parseAccepts c = true := by
  have hdata : c.name.toList ≠ [] := by
    intro hnil
    apply hne
    apply String.ext
    have h2 : c.name.data = [] := hnil
    rw [h2]
  have hregex : nameRegexCheck c.name = true := by
    unfold nameRegexCheck
    rw [Bool.and_eq_true]
    constructor
    · cases hn : c.name.toList with
      | nil => exact absurd hn hdata
      | cons a l => rfl
    · rw [List.all_eq_true]
      intro x hx
      show (asciiLetter x || jsWhitespace x) = true
      rw [hws x hx, Bool.or_true]
  have hlen : ¬ (c.name.length < 1) := by
    intro hlt
    apply hdata
    have : c.name.toList.length = 0 := by
      rw [show c.name.toList.length = c.name.length from rfl]
      omega
    exact List.length_eq_zero.mp this
  have hname : nameIssues c.name = [] := by
    simp [nameIssues, hlen, hregex]
  have hall : allIssues c = [] := by
    simp [allIssues, hname, hm, he, ha, hq]
  cases hage : c.age with
  | none => rw [hage] at ha; simp [ageIssues] at ha
  | some n => simp [parseAccepts, applyParse, hage, hall]

/-- Witness for C10 at a single-space name with otherwise valid fields. -/
theorem C10_witness :
    parseAccepts ⟨" ", "9876543210", "jane@example.com", some 25, "UG"⟩
      = true :=
  C10_whitespace_name_accepted
    ⟨" ", "9876543210", "jane@example.com", some 25, "UG"⟩
    (by decide) (by decide) (by decide) (by decide) (by decide)
    (by decide)

end Bluemantle
